import Mathlib

/-!
Verification of the XCPFOLIO fulfillment / maintenance bot core.

This file gives a shallow embedding of the bot's core logic, translated from
the TypeScript sources:

* `src/constants.ts` — retry, RBF and transaction-limit constants;
* the Redis-backed `StateManager` (`markOrderProcessed`, `clearOldOrders`);
* `FulfillmentProcessor.processOrderSafely` — the validate / duplicate-guard /
  retry-gate / compose / sign / broadcast pipeline;
* `FulfillmentProcessor.attemptRBF` — the BIP-125 fee-escalation logic;
* `MaintenanceStateManager` — the distributed lock and the active-order map;
* `OrderMaintenanceService.run` / `processAsset` (KV-backed revision) — the
  re-listing loop with its duplicate-prevention layers;
* `BitcoinService.broadcastTransaction` — the multi-endpoint broadcast with
  "already in mempool" promotion.

External observations (market fee rates, compose/sign/broadcast outcomes,
mempool contents) are inputs to the embedded functions; JavaScript numbers
used for fee rates are modelled as rationals, counters and satoshi amounts
as naturals, and wall-clock instants as naturals (milliseconds).
-/

namespace Xcpfolio

/-! ## Constants (`src/constants.ts`) -/

/-- `TX_LIMITS.ESTIMATED_TX_VSIZE`: estimated vsize for fee calculations. -/
def ESTIMATED_TX_VSIZE : ℕ := 250

/-- `TX_LIMITS.MAX_TOTAL_FEE_SATS`: hard fee ceiling per transaction. -/
def MAX_TOTAL_FEE_SATS : ℕ := 10000

/-- `TX_LIMITS.MAX_MEMPOOL_TXS`. -/
def MAX_MEMPOOL_TXS : ℕ := 25

/-- `TX_LIMITS.MAX_FEE_RATE_FOR_NEW_TX` (sat/vB). -/
def MAX_FEE_RATE_FOR_NEW_TX : ℕ := 100

/-- `RETRY_STRATEGY.PRE_BROADCAST.QUICK_ATTEMPTS`. -/
def QUICK_ATTEMPTS : ℕ := 10

/-- `RETRY_STRATEGY.PRE_BROADCAST.MODERATE_ATTEMPTS`. -/
def MODERATE_ATTEMPTS : ℕ := 25

/-- `RETRY_STRATEGY.PRE_BROADCAST.EXTENDED_ATTEMPTS`. -/
def EXTENDED_ATTEMPTS : ℕ := 50

/-- `RETRY_STRATEGY.PRE_BROADCAST.MAX_ATTEMPTS`. -/
def MAX_ATTEMPTS : ℕ := 100

/-- `RETRY_STRATEGY.PRE_BROADCAST.QUICK_BACKOFF` (ms). -/
def QUICK_BACKOFF : ℕ := 5000

/-- `RETRY_STRATEGY.PRE_BROADCAST.MODERATE_BACKOFF` (ms). -/
def MODERATE_BACKOFF : ℕ := 30000

/-- `RETRY_STRATEGY.PRE_BROADCAST.EXTENDED_BACKOFF` (ms). -/
def EXTENDED_BACKOFF : ℕ := 60000

/-- `RETRY_STRATEGY.PRE_BROADCAST.HOURLY_BACKOFF` (ms). -/
def HOURLY_BACKOFF : ℕ := 300000

/-- `RETRY_STRATEGY.PRE_BROADCAST.RESET_AFTER` (ms): one hour. -/
def RESET_AFTER : ℕ := 3600000

/-- `RETRY_STRATEGY.RBF.MARKET_PREMIUM_BLOCKS`. -/
def MARKET_PREMIUM_BLOCKS : ℕ := 12

/-- `RETRY_STRATEGY.RBF.MAX_FEE_RATE` (sat/vB), protective cap. -/
def RBF_MAX_FEE_RATE : ℚ := 500

/-- `MAINTENANCE_RETRY_STRATEGY.STALE_ORDER_AGE` (ms): two hours. -/
def STALE_ORDER_AGE : ℕ := 7200000

/-! ## Fulfillment state manager (Redis-backed `StateManager`) -/

/-- `StateManager.markOrderProcessed`: append the order hash to
`processedOrders` if absent, truncating to the most recent 1000 entries
(`Array.prototype.slice(-1000)`). -/
def markOrderProcessed (processedOrders : List String) (orderHash : String) : List String :=
  if orderHash ∈ processedOrders then processedOrders
  else if 1000 < (processedOrders ++ [orderHash]).length then
    (processedOrders ++ [orderHash]).drop ((processedOrders ++ [orderHash]).length - 1000)
  else processedOrders ++ [orderHash]

/-- `StateManager.clearOldOrders`: truncate `processedOrders` to the most
recent `keepCount` entries when longer. -/
def clearOldOrders (processedOrders : List String) (keepCount : ℕ) : List String :=
  if keepCount < processedOrders.length then
    processedOrders.drop (processedOrders.length - keepCount)
  else processedOrders

/-! ## Fulfillment pipeline (`FulfillmentProcessor.processOrderSafely`) -/

/-- A pre-broadcast failure record (`processingState.preBroadcastFailures`). -/
structure PreBroadcastFailure where
  count : ℕ
  stage : String
  firstFailureTime : ℕ
  lastAttemptTime : ℕ
deriving Repr, DecidableEq

/-- The `(maxRetries, minWaitTime)` pair chosen from the failure count in the
progressive backoff strategy of `processOrderSafely`. -/
def retryTier (count : ℕ) : ℕ × ℕ :=
  if count < QUICK_ATTEMPTS then (QUICK_ATTEMPTS, QUICK_BACKOFF)
  else if count < MODERATE_ATTEMPTS then (MODERATE_ATTEMPTS, MODERATE_BACKOFF)
  else if count < EXTENDED_ATTEMPTS then (EXTENDED_ATTEMPTS, EXTENDED_BACKOFF)
  else (MAX_ATTEMPTS, HOURLY_BACKOFF)

/-- Outcome of the progressive retry gate for an order with a failure record. -/
inductive RetryGateDecision
  | proceedAfterReset
  | backoff (stage : String) (count : ℕ)
  | proceed
deriving Repr, DecidableEq

/-- The progressive retry gate of `processOrderSafely`: reset (delete the
record and proceed) when the first failure is more than one hour old,
otherwise soft-fail with "backoff" when the last attempt is more recent than
the tier's minimum wait. -/
def retryGate (f : PreBroadcastFailure) (now : ℕ) : RetryGateDecision :=
  if RESET_AFTER < now - f.firstFailureTime then .proceedAfterReset
  else if now - f.lastAttemptTime < (retryTier f.count).2 then .backoff f.stage f.count
  else .proceed

/-- A per-order result (`ProcessResult` in the source); `stage` is one of
`validation`, `compose`, `sign`, `broadcast`, `confirmed`. -/
structure ProcessResult where
  success : Bool
  stage : Option String
  txid : Option String
  error : Option String
deriving Repr, DecidableEq

/-- Observable side effects of one pass through the transfer pipeline. -/
inductive PipeEvent
  | composeCall (feeRate : ℚ)
  | signCall
  | broadcastCall (fee : ℕ)
  | markProcessed
  | deleteFailureRecord
deriving Repr, DecidableEq

/-- What `bitcoin.broadcastTransaction` did for this order, as observed by
the pipeline's try/catch. -/
inductive BroadcastOutcome
  | accepted (txid : String)
  | errAlreadyMempool
  | errOther
deriving Repr, DecidableEq

/-- The fulfillment configuration fields the pipeline consults. -/
structure FulfillConfig where
  maxMempoolTxs : ℕ
  maxTotalFeeSats : ℕ
  maxFeeRateForNewTx : ℕ
  dryRun : Bool
deriving Repr, DecidableEq

/-- External observations made while processing one order: validation result,
in-memory duplicate guards, the two transaction counts, the market fee rate,
and the outcomes of compose / sign / broadcast. `unconfirmedTxCount` is the
chain client's count (re-checked per order by `processInternal`);
`activeTxCount` is `processingState.orderTransactions.size`. -/
structure OrderEnv where
  now : ℕ
  validationOk : Bool
  existingActiveTxid : Option String
  alreadyTransferred : Bool
  unconfirmedTxCount : ℕ
  activeTxCount : ℕ
  marketFeeRate : ℚ
  composeOk : Bool
  signOk : Bool
  signedFee : ℕ
  broadcastOutcome : BroadcastOutcome
deriving Repr, DecidableEq

/-- The fee rate used for a new transfer: the market rate, capped at
`Math.floor(maxTotalFeeSats / ESTIMATED_TX_VSIZE)` when the estimated total
fee would exceed the ceiling. -/
def composeFeeRate (cfg : FulfillConfig) (marketRate : ℚ) : ℚ :=
  if (cfg.maxTotalFeeSats : ℚ) < marketRate * (ESTIMATED_TX_VSIZE : ℚ) then
    ((cfg.maxTotalFeeSats / ESTIMATED_TX_VSIZE : ℕ) : ℚ)
  else marketRate

/-- Stages 4–6 of `processOrderSafely` (compose, sign, broadcast), entered
once validation, the duplicate guards, and the retry gate have been passed. -/
def pipelineAfterGate (cfg : FulfillConfig) (env : OrderEnv) :
    ProcessResult × List PipeEvent :=
  if cfg.dryRun then (⟨true, some "broadcast", some "dry-run", none⟩, [])
  else if (cfg.maxFeeRateForNewTx : ℚ) < env.marketFeeRate then
    (⟨false, some "compose", none, some "fee rate too high"⟩, [])
  else if env.composeOk = false then
    (⟨false, some "compose", none, some "compose failed"⟩,
      [.composeCall (composeFeeRate cfg env.marketFeeRate)])
  else if env.signOk = false then
    (⟨false, some "sign", none, some "sign failed"⟩,
      [.composeCall (composeFeeRate cfg env.marketFeeRate), .signCall])
  else if cfg.maxTotalFeeSats < env.signedFee then
    (⟨false, some "sign", none, some "fee exceeds maximum"⟩,
      [.composeCall (composeFeeRate cfg env.marketFeeRate), .signCall])
  else if cfg.maxMempoolTxs ≤ env.activeTxCount then
    (⟨false, some "broadcast", none, some "mempool at capacity"⟩,
      [.composeCall (composeFeeRate cfg env.marketFeeRate), .signCall])
  else
    match env.broadcastOutcome with
    | .accepted t =>
        (⟨true, some "broadcast", some t, none⟩,
          [.composeCall (composeFeeRate cfg env.marketFeeRate), .signCall,
            .broadcastCall env.signedFee, .markProcessed])
    | .errAlreadyMempool =>
        (⟨true, some "broadcast", none, none⟩,
          [.composeCall (composeFeeRate cfg env.marketFeeRate), .signCall,
            .broadcastCall env.signedFee, .markProcessed])
    | .errOther =>
        (⟨false, some "broadcast", none, some "broadcast failed"⟩,
          [.composeCall (composeFeeRate cfg env.marketFeeRate), .signCall,
            .broadcastCall env.signedFee])

/-- `processOrderSafely`: validation, the in-memory active-transaction guard,
the ledger already-transferred guard, the progressive retry gate, then the
compose / sign / broadcast stages. The returned list is the sequence of
observable side effects. -/
def processOrderSafely (cfg : FulfillConfig) (failure : Option PreBroadcastFailure)
    (env : OrderEnv) : ProcessResult × List PipeEvent :=
  if env.validationOk = false then
    (⟨false, some "validation", none, some "validation failed"⟩, [])
  else
    match env.existingActiveTxid with
    | some t => (⟨true, some "broadcast", some t, none⟩, [])
    | none =>
      if env.alreadyTransferred then
        (⟨true, some "confirmed", none, none⟩, [.markProcessed])
      else
        match failure with
        | none => pipelineAfterGate cfg env
        | some f =>
          match retryGate f env.now with
          | .backoff st c => (⟨false, some st, none, some ("backoff " ++ toString c)⟩, [])
          | .proceedAfterReset =>
              ((pipelineAfterGate cfg env).1,
                .deleteFailureRecord :: (pipelineAfterGate cfg env).2)
          | .proceed => pipelineAfterGate cfg env

/-! ## RBF escalation (`FulfillmentProcessor.attemptRBF`) -/

/-- The escalated fee rate chosen from `blocksSinceBroadcast`:
`max(feeRate × 1.5, marketRate)` under 12 blocks,
`max(feeRate × 2, marketRate × 1.1)` under 24, else `fastestFee × 1.5`. -/
def rbfEscalatedRate (feeRate marketRate fastestFee : ℚ)
    (blocksSinceBroadcast : ℕ) : ℚ :=
  if blocksSinceBroadcast < MARKET_PREMIUM_BLOCKS then
    max (feeRate * (3 / 2)) marketRate
  else if blocksSinceBroadcast < MARKET_PREMIUM_BLOCKS * 2 then
    max (feeRate * 2) (marketRate * (11 / 10))
  else fastestFee * (3 / 2)

/-- The replacement fee rate of `attemptRBF`: escalate, floor at
`feeRate + 1` (BIP-125), cap at `Math.floor(maxTotalFeeSats / 250)` when the
estimated total fee exceeds the ceiling (`none` = cannot RBF, the record is
dropped without broadcasting), and finally cap at 500 sat/vB. -/
def rbfNewFeeRate (feeRate marketRate fastestFee : ℚ)
    (blocksSinceBroadcast maxTotalFeeSats : ℕ) : Option ℚ :=
  if (maxTotalFeeSats : ℚ) <
      max (rbfEscalatedRate feeRate marketRate fastestFee blocksSinceBroadcast)
        (feeRate + 1) * (ESTIMATED_TX_VSIZE : ℚ) then
    if ((maxTotalFeeSats / ESTIMATED_TX_VSIZE : ℕ) : ℚ) ≤ feeRate then none
    else some (min ((maxTotalFeeSats / ESTIMATED_TX_VSIZE : ℕ) : ℚ) RBF_MAX_FEE_RATE)
  else
    some (min
      (max (rbfEscalatedRate feeRate marketRate fastestFee blocksSinceBroadcast)
        (feeRate + 1))
      RBF_MAX_FEE_RATE)

/-- External observations made during one `attemptRBF` call. -/
structure RbfEnv where
  marketRate : ℚ
  fastestFee : ℚ
  blocksSinceBroadcast : ℕ
  composeOk : Bool
  signOk : Bool
  signedFee : ℕ
  broadcastOk : Bool
  newTxid : String
deriving Repr, DecidableEq

/-- `attemptRBF`: compute the replacement rate; on `none` drop the record
without broadcasting. Otherwise compose (`validate=false`), sign, abort
without broadcasting when the signed fee exceeds the ceiling, else
broadcast. `none` results mean the active record was dropped (or the RBF
was skipped); the event list records the calls actually made. -/
def attemptRBF (maxTotalFeeSats : ℕ) (oldFeeRate : ℚ) (env : RbfEnv) :
    Option ProcessResult × List PipeEvent :=
  match rbfNewFeeRate oldFeeRate env.marketRate env.fastestFee
      env.blocksSinceBroadcast maxTotalFeeSats with
  | none => (none, [])
  | some newRate =>
    if env.composeOk = false then (none, [.composeCall newRate])
    else if env.signOk = false then (none, [.composeCall newRate, .signCall])
    else if maxTotalFeeSats < env.signedFee then
      (none, [.composeCall newRate, .signCall])
    else if env.broadcastOk then
      (some ⟨true, some "broadcast", some env.newTxid, none⟩,
        [.composeCall newRate, .signCall, .broadcastCall env.signedFee])
    else (none, [.composeCall newRate, .signCall, .broadcastCall env.signedFee])

/-! ## Distributed lock (`MaintenanceStateManager.acquireLock` / `releaseLock`) -/

/-- The Redis key `xcpfolio:maintenance:lock`: either empty or holding a lock
identifier together with the TTL it was set with. -/
structure LockStore where
  value : Option (String × ℕ)
deriving Repr, DecidableEq

/-- `acquireLock`: atomic set-if-absent (`SET ... NX EX ttl`) of a freshly
generated identifier. Returns the new store, whether the lock was acquired,
and the identifier this process remembers (`this.lockId`). -/
def acquireLock (store : LockStore) (lockId : String) (ttlSeconds : ℕ) :
    LockStore × Bool × Option String :=
  match store.value with
  | none => (⟨some (lockId, ttlSeconds)⟩, true, some lockId)
  | some _ => (store, false, none)

/-- TTL expiry of the lock key (performed by the store, not the client). -/
def expireLock (_ : LockStore) : LockStore := ⟨none⟩

/-- `releaseLock`: delete the key only when the stored identifier equals the
identifier this process remembered at acquisition; otherwise (not the
holder, or the lock was replaced after TTL expiry) leave the key unchanged. -/
def releaseLock (store : LockStore) (heldLockId : Option String) : LockStore :=
  match heldLockId with
  | none => store
  | some id =>
    match store.value with
    | some (cur, _) => if cur = id then ⟨none⟩ else store
    | none => store

/-! ## Broadcast error promotion (`BitcoinService.broadcastTransaction`) -/

/-- Whether the list starts with the given pattern. -/
def startsWithL : List Char → List Char → Bool
  | _, [] => true
  | [], _ :: _ => false
  | c :: s, p :: ps => c == p && startsWithL s ps

/-- `String.prototype.includes`: whether `pat` occurs anywhere in the list. -/
def containsSub : List Char → List Char → Bool
  | [], pat => pat.isEmpty
  | c :: rest, pat => startsWithL (c :: rest) pat || containsSub rest pat

/-- The character class `[a-f0-9]` of the txid-recovery regex (the error body
has already been lowercased). -/
def isLowerHexChar (c : Char) : Bool :=
  ('a' ≤ c && c ≤ 'f') || ('0' ≤ c && c ≤ '9')

/-- Whether a run of 64 hex digits starts at the head of the list. -/
def hexRun64At (s : List Char) : Bool :=
  (s.take 64).length == 64 && (s.take 64).all isLowerHexChar

/-- The leftmost match of `/[a-f0-9]{64}/`. -/
def hexRun64 : List Char → Option (List Char)
  | [] => none
  | c :: rest =>
    if hexRun64At (c :: rest) then some ((c :: rest).take 64) else hexRun64 rest

/-- The promotion inside `broadcastTransaction`'s per-endpoint catch: when
the lowercased serialized error body mentions `already` or `mempool` and
contains a 64-character hex run, the broadcast is treated as successful with
that run as the recovered txid. -/
def promoteBroadcastError (errorBody : List Char) : Option (List Char) :=
  if containsSub errorBody ("already".toList) ||
      containsSub errorBody ("mempool".toList) then
    hexRun64 errorBody
  else none

/-- One endpoint's observed response: a txid, or an error body (the
lowercased JSON serialization of the response data). -/
inductive EndpointResponse
  | accepted (txid : List Char)
  | failed (errorBody : List Char)
deriving Repr, DecidableEq

/-- `broadcastTransaction`: walk the endpoints in order; return the first
accepted txid, or a txid promoted from an `already`/`mempool` error body;
`none` models the final throw after every endpoint has failed. -/
def broadcastTransaction : List EndpointResponse → Option (List Char)
  | [] => none
  | .accepted t :: _ => some t
  | .failed body :: rest =>
    match promoteBroadcastError body with
    | some t => some t
    | none => broadcastTransaction rest

/-- An error body that mentions the mempool — but not "already" — around a
64-hex txid. -/
def exMempoolBody : List Char := List.replicate 64 'a' ++ " in mempool".toList

/-- The default fulfillment configuration (`constants.ts` defaults). -/
def cfgDefault : FulfillConfig :=
  ⟨MAX_MEMPOOL_TXS, MAX_TOTAL_FEE_SATS, MAX_FEE_RATE_FOR_NEW_TX, false⟩

/-- An order pass where the chain client reports the mempool at capacity
while the in-memory active-transaction map is empty. -/
def envChainFull : OrderEnv :=
  { now := 0, validationOk := true, existingActiveTxid := none,
    alreadyTransferred := false, unconfirmedTxCount := 25, activeTxCount := 0,
    marketFeeRate := 10, composeOk := true, signOk := true, signedFee := 2500,
    broadcastOutcome := .accepted "t" }

/-- A failure record after three compose failures at epoch time 0. -/
def failW : PreBroadcastFailure := ⟨3, "compose", 0, 0⟩

/-- An order pass one second after `failW`'s last attempt. -/
def envBackoffW : OrderEnv := { envChainFull with now := 1000, unconfirmedTxCount := 0 }

/-- An order pass more than one hour after `failW`'s first failure. -/
def envResetW : OrderEnv := { envBackoffW with now := 4000000 }

/-! ## Order maintenance (`OrderMaintenanceService.run`, KV-backed revision) -/

/-- A per-asset maintenance result (`MaintenanceResult`). -/
structure MaintResult where
  asset : String
  price : ℚ
  success : Bool
  txid : Option String
  error : Option String
deriving Repr, DecidableEq

/-- Observable side effects of a maintenance run. -/
inductive MaintEvent
  | markActive (asset txid : String)
  | composeOrderCall (asset : String)
  | signOrderCall (asset : String)
  | broadcastOrderCall (asset : String) (fee : ℕ)
  | clearFailureEv (asset : String)
deriving Repr, DecidableEq

/-- Per-asset external outcomes observed by `processAsset`: whether compose /
sign / broadcast succeed, the signed transaction's fee, the txid, whether the
post-error mempool re-check shows the order, whether the error message is of
the insufficient-funds family, and the `txid:vout` matched by the stale-UTXO
pattern, if any. -/
structure AssetEnv where
  composeOk : Bool
  signOk : Bool
  signedFee : ℕ
  broadcastOk : Bool
  txid : String
  inMempoolAfterError : Bool
  errMsgInsufficient : Bool
  errUtxo : Option String
deriving Repr, DecidableEq

/-- Mutable state threaded through one maintenance run: the in-run processed
set, the mutable pending-orders set, the durable active-order map
(asset ↦ txid marker), and the counters. -/
structure MaintRunState where
  processedThisRun : List String
  pendingOrdersSet : List String
  activeOrders : List (String × String)
  currentUnconfirmed : ℕ
  consecutiveUtxoFailures : ℕ
  lastFailedUtxo : Option String
  events : List MaintEvent
deriving Repr, DecidableEq

/-- `MaintenanceStateManager.markOrderActive`: overwrite the asset's entry in
the durable active-order map. -/
def setActiveOrder (m : List (String × String)) (asset txid : String) :
    List (String × String) :=
  (asset, txid) :: m.filter fun p => !(p.1 == asset)

/-- Whether an error result is of the insufficient-funds family
(`isInsufficientFundsError` on the recorded message). -/
def isInsufficientErr (e : Option String) : Bool :=
  e == some "insufficient"

/-- The catch block of `processAsset`: re-check the mempool; if the order is
visible, treat the attempt as a success; otherwise keep the durable marker
and the in-run sets unchanged (never cleared here) and track consecutive
stale-UTXO failures. -/
def maintErrorPath (s1 : MaintRunState) (asset : String) (price : ℚ)
    (env : AssetEnv) : MaintRunState × Option MaintResult :=
  if env.inMempoolAfterError then
    ({ s1 with currentUnconfirmed := s1.currentUnconfirmed + 1 },
      some ⟨asset, price, true, some "found-in-mempool", none⟩)
  else
    (match env.errUtxo with
      | some u =>
        if s1.lastFailedUtxo = some u then
          { s1 with consecutiveUtxoFailures := s1.consecutiveUtxoFailures + 1 }
        else
          { s1 with consecutiveUtxoFailures := 1, lastFailedUtxo := some u }
      | none => s1,
      some ⟨asset, price, false, none,
        some (if env.errMsgInsufficient then "insufficient" else "error")⟩)

/-- The compose / sign / broadcast attempt of `processAsset`, entered after
the duplicate-prevention layers passed and the asset was marked active with
the `pending` placeholder. -/
def maintAttempt (s1 : MaintRunState) (asset : String) (price : ℚ)
    (env : AssetEnv) : MaintRunState × Option MaintResult :=
  if env.composeOk = false then
    maintErrorPath { s1 with events := s1.events ++ [.composeOrderCall asset] }
      asset price env
  else if env.signOk = false then
    maintErrorPath
      { s1 with events := s1.events ++ [.composeOrderCall asset, .signOrderCall asset] }
      asset price env
  else if env.broadcastOk = false then
    maintErrorPath
      { s1 with events := s1.events ++ [.composeOrderCall asset, .signOrderCall asset,
          .broadcastOrderCall asset env.signedFee] }
      asset price env
  else
    ({ s1 with
        activeOrders := setActiveOrder s1.activeOrders asset env.txid,
        events := s1.events ++ [.composeOrderCall asset, .signOrderCall asset,
          .broadcastOrderCall asset env.signedFee, .markActive asset env.txid,
          .clearFailureEv asset],
        currentUnconfirmed := s1.currentUnconfirmed + 1 },
      some ⟨asset, price, true, some env.txid, none⟩)

/-- `processAsset` (KV-backed revision): the mempool-capacity stop, the three
duplicate-prevention layers (in-run processed set, pending-orders set, fresh
durable active-order read), then mark active with placeholder `pending`
before composing, and run the attempt. -/
def processAsset (maxMempoolTxs : ℕ) (s : MaintRunState) (asset : String)
    (price : ℚ) (env : AssetEnv) : MaintRunState × Option MaintResult :=
  if maxMempoolTxs ≤ s.currentUnconfirmed then (s, none)
  else if asset ∈ s.processedThisRun then (s, none)
  else if asset ∈ s.pendingOrdersSet then (s, none)
  else if (s.activeOrders.lookup asset).isSome then (s, none)
  else
    maintAttempt
      { s with
        processedThisRun := s.processedThisRun ++ [asset],
        pendingOrdersSet := s.pendingOrdersSet ++ [asset],
        activeOrders := setActiveOrder s.activeOrders asset "pending",
        events := s.events ++ [.markActive asset "pending"] }
      asset price env

/-- Step 7 of `run`: the assets to process are the balances not already
listed whose configured price is positive (`price && price > 0`). -/
def buildToProcess (balances : List (String × ℕ)) (alreadyListed : List String)
    (prices : List (String × ℚ)) : List (String × ℚ) :=
  balances.filterMap fun b =>
    if b.1 ∈ alreadyListed then none
    else
      match prices.lookup b.1 with
      | some p => if 0 < p then some (b.1, p) else none
      | none => none

/-- Step 8 of `run`: process each asset once, stopping at mempool capacity,
on an insufficient-funds error, or after three consecutive identical
stale-UTXO failures. -/
def maintRunLoop (maxMempoolTxs : ℕ) :
    MaintRunState → List (String × ℚ × AssetEnv) → MaintRunState
  | s, [] => s
  | s, (asset, price, env) :: rest =>
    match processAsset maxMempoolTxs s asset price env with
    | (s', none) =>
      if maxMempoolTxs ≤ s'.currentUnconfirmed then s'
      else maintRunLoop maxMempoolTxs s' rest
    | (s', some res) =>
      if res.success = false ∧ isInsufficientErr res.error then s'
      else if 3 ≤ s'.consecutiveUtxoFailures then s'
      else maintRunLoop maxMempoolTxs s' rest

/-- The inputs of one maintenance run: balances, the price table, the three
sources of `alreadyListed`, the unconfirmed count, and the per-asset
outcomes. -/
structure MaintInputs where
  balances : List (String × ℕ)
  prices : List (String × ℚ)
  existingOrders : List String
  pendingOrders : List String
  activeAssets : List (String × String)
  unconfirmedCount : ℕ
  dryRun : Bool
  envs : List (String × AssetEnv)
deriving Repr, DecidableEq

/-- Default per-asset outcome (everything succeeds). -/
def defaultAssetEnv : AssetEnv := ⟨true, true, 0, true, "t", false, false, none⟩

/-- `alreadyListed = confirmedOpenOrders ∪ mempoolOpenOrders ∪
trackedActiveOrders` at the start of the run. -/
def alreadyListedOf (inp : MaintInputs) : List String :=
  inp.existingOrders ++ inp.pendingOrders ++ inp.activeAssets.map (·.1)

/-- One maintenance run (`OrderMaintenanceService.run`, KV-backed revision):
bail at capacity, short-circuit dry runs, otherwise build `toProcess`
excluding `alreadyListed` and loop over it. -/
def maintRun (maxMempoolTxs : ℕ) (inp : MaintInputs) : MaintRunState :=
  let s0 : MaintRunState :=
    ⟨[], inp.pendingOrders, inp.activeAssets, inp.unconfirmedCount, 0, none, []⟩
  if maxMempoolTxs ≤ inp.unconfirmedCount then s0
  else if inp.dryRun then s0
  else
    maintRunLoop maxMempoolTxs s0
      ((buildToProcess inp.balances (alreadyListedOf inp) inp.prices).map
        fun ap => (ap.1, ap.2, (inp.envs.lookup ap.1).getD defaultAssetEnv))

/-- `MaintenanceStateManager.clearStaleActiveOrders`: delete exactly the
entries whose broadcast time is more than `maxAgeMs` ago (entries are
(asset, broadcastTime) pairs here). -/
def clearStaleActiveOrders (orders : List (String × ℕ)) (now maxAgeMs : ℕ) :
    List (String × ℕ) :=
  orders.filter fun p => !(maxAgeMs < now - p.2)

/-! ## Process-lifetime broadcast accounting for the fulfillment controller

A small transition system over the per-process lifetime of
`FulfillmentProcessor`: the durable processed-order set, the in-memory
active-transaction records, and the steps that touch them. Each step is one
of the code paths of `processInternal` / `processOrderSafely` /
`attemptRBF` that can broadcast, mark, or drop; its guard is the check the
code performs immediately before taking that path (runs are sequential
in-process, so steps do not interleave). -/

/-- A step of a fulfillment process lifetime. -/
inductive LifeStep
  | freshOk (h : String)
  | freshErr (h : String)
  | skipTransferred (h : String)
  | rbf (h : String)
  | rbfErr (h : String)
  | rbfAbandon (h : String)
  | confirmDrop (h : String)
  | cleanup (keep : ℕ)
deriving Repr, DecidableEq

/-- The lifetime state: the durable `processedOrders` list and the order
hashes with an in-memory active-transaction record. -/
structure LifeState where
  processed : List String
  active : List String
deriving Repr, DecidableEq

/-- The initial state of a fresh deployment. -/
def lifeInit : LifeState := ⟨[], []⟩

/-- Step guards, from the code: a fresh (non-RBF) broadcast for `h` is
attempted only when `h` is not in the processed set (the `processedOrders`
filter and the per-order `isOrderProcessed` re-check) and has no in-memory
active record (stage 2 returns early otherwise); the already-transferred
skip requires `h` unprocessed; RBF steps require an active record. -/
def lifeGuard (s : LifeState) : LifeStep → Bool
  | .freshOk h => decide (h ∉ s.processed) && decide (h ∉ s.active)
  | .freshErr h => decide (h ∉ s.processed) && decide (h ∉ s.active)
  | .skipTransferred h => decide (h ∉ s.processed)
  | .rbf h => decide (h ∈ s.active)
  | .rbfErr h => decide (h ∈ s.active)
  | .rbfAbandon h => decide (h ∈ s.active)
  | .confirmDrop h => decide (h ∈ s.active)
  | .cleanup _ => true

/-- Step effects: a successful fresh broadcast marks the order processed and
records the active transaction; a failed fresh broadcast changes nothing
(the order is not marked); the already-transferred skip marks processed; a
successful RBF only rewrites txids; a failed or impossible RBF drops the
record (the order stays marked); confirmation drops the record; cleanup is
`clearOldOrders`. -/
def lifeApply (s : LifeState) : LifeStep → LifeState
  | .freshOk h => ⟨markOrderProcessed s.processed h, s.active ++ [h]⟩
  | .freshErr _ => s
  | .skipTransferred h => ⟨markOrderProcessed s.processed h, s.active.erase h⟩
  | .rbf _ => s
  | .rbfErr h => ⟨s.processed, s.active.erase h⟩
  | .rbfAbandon h => ⟨s.processed, s.active.erase h⟩
  | .confirmDrop h => ⟨s.processed, s.active.erase h⟩
  | .cleanup keep => ⟨clearOldOrders s.processed keep, s.active⟩

/-- A trace is valid when every step's guard holds where it is taken. -/
def lifeValid : LifeState → List LifeStep → Bool
  | _, [] => true
  | s, st :: rest => lifeGuard s st && lifeValid (lifeApply s st) rest

/-- Steps that call `broadcastTransaction` for `h` as a fresh transfer. -/
def isFreshFor (h : String) : LifeStep → Bool
  | .freshOk h' => h' == h
  | .freshErr h' => h' == h
  | _ => false

/-- Successful fresh broadcasts for `h`. -/
def isFreshOkFor (h : String) : LifeStep → Bool
  | .freshOk h' => h' == h
  | _ => false

/-- Failed fresh broadcast attempts for `h`. -/
def isFreshErrFor (h : String) : LifeStep → Bool
  | .freshErr h' => h' == h
  | _ => false

/-- RBF broadcast calls for `h` (successful or raising). -/
def isRbfCallFor (h : String) : LifeStep → Bool
  | .rbf h' => h' == h
  | .rbfErr h' => h' == h
  | _ => false

/-- All `broadcastTransaction` calls made for `h`. -/
def isBroadcastCallFor (h : String) : LifeStep → Bool
  | .freshOk h' => h' == h
  | .freshErr h' => h' == h
  | .rbf h' => h' == h
  | .rbfErr h' => h' == h
  | _ => false

/-- The truncation step of `cleanupOldCompletedOrders`. -/
def isCleanup : LifeStep → Bool
  | .cleanup _ => true
  | _ => false

def countFresh (h : String) (t : List LifeStep) : ℕ := t.countP (isFreshFor h)

def countFreshOk (h : String) (t : List LifeStep) : ℕ := t.countP (isFreshOkFor h)

def countFreshErr (h : String) (t : List LifeStep) : ℕ := t.countP (isFreshErrFor h)

def countRbfCalls (h : String) (t : List LifeStep) : ℕ := t.countP (isRbfCallFor h)

def countBroadcastCalls (h : String) (t : List LifeStep) : ℕ :=
  t.countP (isBroadcastCallFor h)

def hasCleanup (t : List LifeStep) : Bool := t.any isCleanup

/-- An empty maintenance run state with nothing pending. -/
def maintS0 : MaintRunState := ⟨[], [], [], 0, 0, none, []⟩

/-- A per-asset outcome whose signed listing transaction carries a
15000-sat fee and every call succeeds. -/
def envOverFee : AssetEnv := ⟨true, true, 15000, true, "t1", false, false, none⟩

/-- A per-asset outcome whose compose call fails and whose post-error
mempool re-check does not show the order. -/
def envComposeFails : AssetEnv := ⟨false, true, 0, true, "t1", false, false, none⟩

/-- Maintenance inputs where asset `A` is already listed as a confirmed
open order. -/
def inpListedW : MaintInputs :=
  ⟨[("A", 1), ("B", 1)], [("A", 1), ("B", 2)], ["A"], [], [], 0, false,
    [("A", defaultAssetEnv), ("B", defaultAssetEnv)]⟩

/-! ## Theorems -/

theorem markOrderProcessed_of_mem {l : List String} {h : String} (hm : h ∈ l) :
    markOrderProcessed l h = l := by
  simp [markOrderProcessed, hm]

theorem markOrderProcessed_mem_self (l : List String) (h : String) :
    h ∈ markOrderProcessed l h := by
  unfold markOrderProcessed
  split
  · assumption
  · split
    · rename_i hnm hlen
      have hd : (l ++ [h]).length - 1000 ≤ l.length := by
        simp only [List.length_append, List.length_singleton]
        omega
      rw [List.drop_append_of_le_length hd]
      exact List.mem_append_right _ (List.mem_singleton_self h)
    · exact List.mem_append_right _ (List.mem_singleton_self h)

theorem markOrderProcessed_length_le (l : List String) (h : String) :
    (markOrderProcessed l h).length ≤ l.length + 1 := by
  unfold markOrderProcessed
  split
  · omega
  · split
    · simp only [List.length_drop, List.length_append, List.length_singleton]
      omega
    · simp

theorem markOrderProcessed_length_le_1000 (l : List String) (h : String)
    (hl : l.length ≤ 1000) : (markOrderProcessed l h).length ≤ 1000 := by
  unfold markOrderProcessed
  split
  · omega
  · split
    · rename_i hlen
      simp only [List.length_drop]
      omega
    · rename_i hlen
      simp only [List.length_append, List.length_singleton] at hlen ⊢
      omega

theorem markOrderProcessed_mem_of_mem {l : List String} {a : String} (h : String)
    (ha : a ∈ l) (hl : l.length ≤ 999) : a ∈ markOrderProcessed l h := by
  unfold markOrderProcessed
  split
  · assumption
  · split
    · rename_i hlen
      simp only [List.length_append, List.length_singleton] at hlen
      omega
    · exact List.mem_append_left _ ha

theorem markOrderProcessed_count_le (l : List String) (h : String)
    (hcount : l.count h ≤ 1) : (markOrderProcessed l h).count h ≤ 1 := by
  unfold markOrderProcessed
  split
  · exact hcount
  · rename_i hnm
    have hc0 : l.count h = 0 := List.count_eq_zero.mpr hnm
    have hcp : (l ++ [h]).count h = 1 := by
      simp [List.count_append, hc0]
    split
    · calc ((l ++ [h]).drop ((l ++ [h]).length - 1000)).count h
          ≤ (l ++ [h]).count h := List.Sublist.count_le (List.drop_sublist _ _) h
        _ = 1 := hcp
    · exact le_of_eq hcp

theorem markOrderProcessed_nodup (l : List String) (h : String)
    (hnd : l.Nodup) : (markOrderProcessed l h).Nodup := by
  unfold markOrderProcessed
  split
  · exact hnd
  · rename_i hnm
    have hp : (l ++ [h]).Nodup := by
      simp [List.nodup_append, hnd, hnm]
    split
    · exact (List.drop_sublist _ _).nodup hp
    · exact hp

/-- C9: `markOrderProcessed` is idempotent on hashes already present, keeps
`processedOrders` free of duplicates of the given hash, never lets it grow
beyond 1000 entries, and when the 1000-bound is hit it drops exactly the
oldest entry, keeping the most recent 1000 in their original order. -/
theorem c9_mark_order_processed_props (l : List String) (h : String)
    (hcount : l.count h ≤ 1) (hlen : l.length ≤ 1000) :
    (h ∈ l → markOrderProcessed l h = l) ∧
    (markOrderProcessed l h).count h ≤ 1 ∧
    (markOrderProcessed l h).length ≤ 1000 ∧
    (h ∉ l → l.length = 1000 → markOrderProcessed l h = (l ++ [h]).drop 1) ∧
    (l.Nodup → (markOrderProcessed l h).Nodup) := by
  refine ⟨fun hm => markOrderProcessed_of_mem hm,
    markOrderProcessed_count_le l h hcount,
    markOrderProcessed_length_le_1000 l h hlen,
    fun hnm hl1000 => ?_,
    fun hnd => markOrderProcessed_nodup l h hnd⟩
  unfold markOrderProcessed
  rw [if_neg hnm]
  have hlen' : (l ++ [h]).length = 1001 := by
    simp [hl1000]
  rw [if_pos (by omega), hlen']

/-- Witness for C9 at a concrete state. -/
theorem c9_mark_order_processed_props_witness :
    (("b" : String) ∈ ["a"] → markOrderProcessed ["a"] "b" = ["a"]) ∧
    (markOrderProcessed ["a"] "b").count "b" ≤ 1 ∧
    (markOrderProcessed ["a"] "b").length ≤ 1000 ∧
    (("b" : String) ∉ ["a"] → (["a"] : List String).length = 1000 →
      markOrderProcessed ["a"] "b" = ((["a"] : List String) ++ ["b"]).drop 1) ∧
    ((["a"] : List String).Nodup → (markOrderProcessed ["a"] "b").Nodup) :=
  c9_mark_order_processed_props ["a"] "b" (by decide) (by decide)

theorem pipelineAfterGate_broadcast_fee_le (cfg : FulfillConfig) (env : OrderEnv)
    (fee : ℕ) (hb : PipeEvent.broadcastCall fee ∈ (pipelineAfterGate cfg env).2) :
    fee ≤ cfg.maxTotalFeeSats := by
  unfold pipelineAfterGate at hb
  split_ifs at hb with h1 h2 h3 h4 h5 h6
  · simp at hb
  · simp at hb
  · simp at hb
  · simp at hb
  · simp at hb
  · simp at hb
  · cases henv : env.broadcastOutcome with
    | accepted t =>
        rw [henv] at hb
        simp only [List.mem_cons, List.not_mem_nil, or_false] at hb
        rcases hb with h | h | h | h
        · exact absurd h (by simp)
        · exact absurd h (by simp)
        · injection h with h; omega
        · exact absurd h (by simp)
    | errAlreadyMempool =>
        rw [henv] at hb
        simp only [List.mem_cons, List.not_mem_nil, or_false] at hb
        rcases hb with h | h | h | h
        · exact absurd h (by simp)
        · exact absurd h (by simp)
        · injection h with h; omega
        · exact absurd h (by simp)
    | errOther =>
        rw [henv] at hb
        simp only [List.mem_cons, List.not_mem_nil, or_false] at hb
        rcases hb with h | h | h
        · exact absurd h (by simp)
        · exact absurd h (by simp)
        · injection h with h; omega

theorem processOrderSafely_broadcast_fee_le (cfg : FulfillConfig)
    (failure : Option PreBroadcastFailure) (env : OrderEnv) (fee : ℕ)
    (hb : PipeEvent.broadcastCall fee ∈ (processOrderSafely cfg failure env).2) :
    fee ≤ cfg.maxTotalFeeSats := by
  unfold processOrderSafely at hb
  by_cases h1 : env.validationOk = false
  · rw [if_pos h1] at hb; simp at hb
  · rw [if_neg h1] at hb
    cases henv : env.existingActiveTxid with
    | some t => rw [henv] at hb; simp at hb
    | none =>
      rw [henv] at hb
      by_cases h2 : env.alreadyTransferred = true
      · rw [if_pos h2] at hb; simp at hb
      · rw [if_neg h2] at hb
        cases failure with
        | none => exact pipelineAfterGate_broadcast_fee_le cfg env fee hb
        | some f =>
          cases hg : retryGate f env.now with
          | backoff st c => simp [hg] at hb
          | proceedAfterReset =>
              simp only [hg, List.mem_cons] at hb
              rcases hb with h | h
              · exact absurd h (by simp)
              · exact pipelineAfterGate_broadcast_fee_le cfg env fee h
          | proceed =>
              simp only [hg] at hb
              exact pipelineAfterGate_broadcast_fee_le cfg env fee hb

theorem attemptRBF_broadcast_fee_le (maxTotalFeeSats : ℕ) (oldFeeRate : ℚ)
    (env : RbfEnv) (fee : ℕ)
    (hb : PipeEvent.broadcastCall fee ∈ (attemptRBF maxTotalFeeSats oldFeeRate env).2) :
    fee ≤ maxTotalFeeSats := by
  unfold attemptRBF at hb
  cases hr : rbfNewFeeRate oldFeeRate env.marketRate env.fastestFee
      env.blocksSinceBroadcast maxTotalFeeSats with
  | none => simp [hr] at hb
  | some newRate =>
    rw [hr] at hb
    split_ifs at hb with h1 h2 h3 h4
    · simp at hb
    · simp at hb
    · simp at hb
    all_goals
      simp only [List.mem_cons, List.not_mem_nil, or_false] at hb
      rcases hb with h | h | h
      · exact absurd h (by simp)
      · exact absurd h (by simp)
      · injection h with h; omega

/-- C1 (amended): every `broadcastTransaction` call made by the fulfillment
controller — a new transfer in `processOrderSafely` or an RBF replacement in
`attemptRBF` — carries a signed transaction whose absolute fee is at most
`maxTotalFeeSats`; both stages abort before broadcasting otherwise. (The
maintenance listing path performs no such check, see the counterexample.) -/
theorem c1_fulfillment_fee_ceiling :
    (∀ (cfg : FulfillConfig) (failure : Option PreBroadcastFailure) (env : OrderEnv)
      (fee : ℕ), PipeEvent.broadcastCall fee ∈ (processOrderSafely cfg failure env).2 →
      fee ≤ cfg.maxTotalFeeSats) ∧
    (∀ (maxTotalFeeSats : ℕ) (oldFeeRate : ℚ) (env : RbfEnv) (fee : ℕ),
      PipeEvent.broadcastCall fee ∈ (attemptRBF maxTotalFeeSats oldFeeRate env).2 →
      fee ≤ maxTotalFeeSats) :=
  ⟨processOrderSafely_broadcast_fee_le, attemptRBF_broadcast_fee_le⟩

/-- Witness for C1 at a concrete broadcast. -/
theorem c1_fulfillment_fee_ceiling_witness :
    PipeEvent.broadcastCall 2500 ∈ (processOrderSafely cfgDefault none envChainFull).2 ∧
    2500 ≤ cfgDefault.maxTotalFeeSats := by
  have hmem : PipeEvent.broadcastCall 2500 ∈ (processOrderSafely cfgDefault none envChainFull).2 := by
    simp only [processOrderSafely, pipelineAfterGate, cfgDefault, envChainFull,
      composeFeeRate, MAX_MEMPOOL_TXS, MAX_TOTAL_FEE_SATS, MAX_FEE_RATE_FOR_NEW_TX,
      ESTIMATED_TX_VSIZE]
    norm_num
  exact ⟨hmem, c1_fulfillment_fee_ceiling.1 cfgDefault none envChainFull 2500 hmem⟩

theorem pipelineAfterGate_no_broadcast_of_capacity (cfg : FulfillConfig)
    (env : OrderEnv) (hcap : cfg.maxMempoolTxs ≤ env.activeTxCount) (fee : ℕ) :
    PipeEvent.broadcastCall fee ∉ (pipelineAfterGate cfg env).2 := by
  intro hb
  unfold pipelineAfterGate at hb
  split_ifs at hb with h1 h2 h3 h4 h5
  · simp at hb
  · simp at hb
  · simp at hb
  · simp at hb
  · simp at hb
  · simp at hb

/-- C5 counterexample: with the chain client reporting the unconfirmed
transaction count at `maxMempoolTxs` but the in-memory active-transaction map
empty, the pipeline still broadcasts instead of aborting at stage
`broadcast` — the pre-broadcast re-check compares
`processingState.orderTransactions.size`, not the chain count. -/
theorem c5_broadcast_gate_counterexample :
    cfgDefault.maxMempoolTxs ≤ envChainFull.unconfirmedTxCount ∧
    (processOrderSafely cfgDefault none envChainFull).1.success = true ∧
    (processOrderSafely cfgDefault none envChainFull).1.stage = some "broadcast" ∧
    PipeEvent.broadcastCall 2500 ∈ (processOrderSafely cfgDefault none envChainFull).2 := by
  refine ⟨by norm_num [cfgDefault, envChainFull, MAX_MEMPOOL_TXS], ?_, ?_, ?_⟩ <;>
    simp only [processOrderSafely, pipelineAfterGate, cfgDefault, envChainFull,
      composeFeeRate, MAX_MEMPOOL_TXS, MAX_TOTAL_FEE_SATS, MAX_FEE_RATE_FOR_NEW_TX,
      ESTIMATED_TX_VSIZE] <;> norm_num

/-- C5 (amended): the pre-broadcast capacity re-check of `processOrderSafely`
compares the in-memory active-transaction count (`orderTransactions.size`)
with `maxMempoolTxs`; when that count is at or above capacity no
`broadcastTransaction` call happens, and a pass that reaches the broadcast
stage returns a failure result at stage `broadcast`. -/
theorem c5_active_tx_gate (cfg : FulfillConfig) (failure : Option PreBroadcastFailure)
    (env : OrderEnv) (hcap : cfg.maxMempoolTxs ≤ env.activeTxCount) :
    (∀ fee, PipeEvent.broadcastCall fee ∉ (processOrderSafely cfg failure env).2) ∧
    (env.validationOk = true → env.existingActiveTxid = none →
      env.alreadyTransferred = false → failure = none → cfg.dryRun = false →
      env.marketFeeRate ≤ (cfg.maxFeeRateForNewTx : ℚ) → env.composeOk = true →
      env.signOk = true → env.signedFee ≤ cfg.maxTotalFeeSats →
      (processOrderSafely cfg failure env).1 =
        ⟨false, some "broadcast", none, some "mempool at capacity"⟩) := by
  constructor
  · intro fee hb
    unfold processOrderSafely at hb
    by_cases h1 : env.validationOk = false
    · rw [if_pos h1] at hb; simp at hb
    · rw [if_neg h1] at hb
      cases henv : env.existingActiveTxid with
      | some t => rw [henv] at hb; simp at hb
      | none =>
        rw [henv] at hb
        by_cases h2 : env.alreadyTransferred = true
        · rw [if_pos h2] at hb; simp at hb
        · rw [if_neg h2] at hb
          cases failure with
          | none => exact pipelineAfterGate_no_broadcast_of_capacity cfg env hcap fee hb
          | some f =>
            cases hg : retryGate f env.now with
            | backoff st c => simp [hg] at hb
            | proceedAfterReset =>
                simp only [hg, List.mem_cons] at hb
                rcases hb with h | h
                · exact absurd h (by simp)
                · exact pipelineAfterGate_no_broadcast_of_capacity cfg env hcap fee h
            | proceed =>
                simp only [hg] at hb
                exact pipelineAfterGate_no_broadcast_of_capacity cfg env hcap fee hb
  · intro hv hex htr hf hdry hrate hcomp hsign hfee
    subst hf
    unfold processOrderSafely
    rw [if_neg (by simp [hv]), hex]
    rw [if_neg (by simp [htr])]
    unfold pipelineAfterGate
    rw [if_neg (by simp [hdry]), if_neg (not_lt.mpr hrate),
      if_neg (by simp [hcomp]), if_neg (by simp [hsign]),
      if_neg (not_lt.mpr hfee), if_pos hcap]

/-- Witness for C5 at a concrete at-capacity state. -/
theorem c5_active_tx_gate_witness :
    (∀ fee, PipeEvent.broadcastCall fee ∉
      (processOrderSafely cfgDefault none { envChainFull with activeTxCount := 25 }).2) ∧
    ((processOrderSafely cfgDefault none { envChainFull with activeTxCount := 25 }).1 =
      ⟨false, some "broadcast", none, some "mempool at capacity"⟩) := by
  have h := c5_active_tx_gate cfgDefault none { envChainFull with activeTxCount := 25 }
    (by norm_num [cfgDefault, envChainFull, MAX_MEMPOOL_TXS])
  exact ⟨h.1, h.2 rfl rfl rfl rfl rfl
    (by norm_num [cfgDefault, envChainFull, MAX_FEE_RATE_FOR_NEW_TX]) rfl rfl
    (by norm_num [cfgDefault, envChainFull, MAX_TOTAL_FEE_SATS])⟩

/-- C6: the progressive retry gate. The `(maxRetries, minWait)` tier is a
pure function of the failure count with the documented thresholds; while the
first failure is at most one hour old, a pass whose last attempt is more
recent than the tier's minimum wait returns an unsuccessful backoff result at
the recorded stage with no side effects; when the first failure is more than
one hour old the record is deleted and processing proceeds. -/
theorem c6_retry_gate :
    (∀ c : ℕ,
      (c < 10 → retryTier c = (10, 5000)) ∧
      (10 ≤ c → c < 25 → retryTier c = (25, 30000)) ∧
      (25 ≤ c → c < 50 → retryTier c = (50, 60000)) ∧
      (50 ≤ c → retryTier c = (100, 300000))) ∧
    (∀ (cfg : FulfillConfig) (f : PreBroadcastFailure) (env : OrderEnv),
      env.validationOk = true → env.existingActiveTxid = none →
      env.alreadyTransferred = false →
      env.now - f.firstFailureTime ≤ RESET_AFTER →
      env.now - f.lastAttemptTime < (retryTier f.count).2 →
      processOrderSafely cfg (some f) env =
        (⟨false, some f.stage, none, some ("backoff " ++ toString f.count)⟩, [])) ∧
    (∀ (cfg : FulfillConfig) (f : PreBroadcastFailure) (env : OrderEnv),
      env.validationOk = true → env.existingActiveTxid = none →
      env.alreadyTransferred = false →
      RESET_AFTER < env.now - f.firstFailureTime →
      processOrderSafely cfg (some f) env =
        ((pipelineAfterGate cfg env).1,
          PipeEvent.deleteFailureRecord :: (pipelineAfterGate cfg env).2)) := by
  refine ⟨fun c => ⟨fun h => ?_, fun h1 h2 => ?_, fun h1 h2 => ?_, fun h => ?_⟩,
    fun cfg f env hv hex htr hfirst hlast => ?_, fun cfg f env hv hex htr hfirst => ?_⟩
  · unfold retryTier QUICK_ATTEMPTS QUICK_BACKOFF
    rw [if_pos h]
  · unfold retryTier QUICK_ATTEMPTS MODERATE_ATTEMPTS MODERATE_BACKOFF
    rw [if_neg (by omega), if_pos (by omega)]
  · unfold retryTier QUICK_ATTEMPTS MODERATE_ATTEMPTS EXTENDED_ATTEMPTS EXTENDED_BACKOFF
    rw [if_neg (by omega), if_neg (by omega), if_pos (by omega)]
  · unfold retryTier QUICK_ATTEMPTS MODERATE_ATTEMPTS EXTENDED_ATTEMPTS MAX_ATTEMPTS
      HOURLY_BACKOFF
    rw [if_neg (by omega), if_neg (by omega), if_neg (by omega)]
  · have hg : retryGate f env.now = .backoff f.stage f.count := by
      unfold retryGate
      rw [if_neg (not_lt.mpr hfirst), if_pos hlast]
    unfold processOrderSafely
    rw [if_neg (by simp [hv]), hex, if_neg (by simp [htr])]
    simp only [hg]
  · have hg : retryGate f env.now = .proceedAfterReset := by
      unfold retryGate
      rw [if_pos hfirst]
    unfold processOrderSafely
    rw [if_neg (by simp [hv]), hex, if_neg (by simp [htr])]
    simp only [hg]

/-- Witness for C6 at concrete failure records. -/
theorem c6_retry_gate_witness :
    retryTier 3 = (10, 5000) ∧
    processOrderSafely cfgDefault (some failW) envBackoffW =
      (⟨false, some "compose", none, some ("backoff " ++ toString 3)⟩, []) ∧
    processOrderSafely cfgDefault (some failW) envResetW =
      ((pipelineAfterGate cfgDefault envResetW).1,
        PipeEvent.deleteFailureRecord :: (pipelineAfterGate cfgDefault envResetW).2) :=
  ⟨(c6_retry_gate.1 3).1 (by decide),
    c6_retry_gate.2.1 cfgDefault failW envBackoffW rfl rfl rfl (by decide)
      (by decide),
    c6_retry_gate.2.2 cfgDefault failW envResetW rfl rfl rfl (by decide)⟩

/-- C4 counterexample: starting from the (RBF-reachable) fractional stored
fee rate 39.5 sat/vB with the default 10000-sat ceiling, the fee-ceiling cap
produces a replacement rate of 40 sat/vB — the RBF broadcasts, but the
increment is only 0.5 sat/vB, below the claimed `oldFeeRate + 1` floor. -/
theorem c4_bip125_counterexample :
    rbfNewFeeRate (79 / 2) 10 10 3 10000 = some 40 ∧
    ¬ ((79 / 2 : ℚ) + 1 ≤ 40) := by
  constructor
  · norm_num [rbfNewFeeRate, rbfEscalatedRate, MARKET_PREMIUM_BLOCKS,
      ESTIMATED_TX_VSIZE, RBF_MAX_FEE_RATE, max_def, min_def]
  · norm_num

/-- C4 (amended): when the stored fee rate is an integer (as set by a fresh
broadcast via `Math.ceil(fee / vsize)`) and
`Math.floor(maxTotalFeeSats / estimatedVsize) ≤ 500` (as with the default
10000 / 250 = 40), every replacement rate `attemptRBF` would broadcast at
satisfies `newRate ≥ oldRate + 1`, for every market rate, fastest-fee rate
and block age. -/
theorem c4_bip125_integer_monotonic (n : ℕ) (marketRate fastestFee : ℚ)
    (blocks maxTotal : ℕ) (r : ℚ)
    (hcap : maxTotal / ESTIMATED_TX_VSIZE ≤ 500)
    (h : rbfNewFeeRate (n : ℚ) marketRate fastestFee blocks maxTotal = some r) :
    (n : ℚ) + 1 ≤ r := by
  unfold rbfNewFeeRate at h
  set e := rbfEscalatedRate (n : ℚ) marketRate fastestFee blocks with he
  split_ifs at h with h1 h2
  · injection h with h'
    push_neg at h2
    have hq500 : ((maxTotal / ESTIMATED_TX_VSIZE : ℕ) : ℚ) ≤ RBF_MAX_FEE_RATE := by
      unfold RBF_MAX_FEE_RATE
      exact_mod_cast hcap
    rw [min_eq_left hq500] at h'
    rw [← h']
    have hn : n < maxTotal / ESTIMATED_TX_VSIZE := by exact_mod_cast h2
    have hn1 : n + 1 ≤ maxTotal / ESTIMATED_TX_VSIZE := hn
    calc (n : ℚ) + 1 = ((n + 1 : ℕ) : ℚ) := by push_cast; ring
      _ ≤ ((maxTotal / ESTIMATED_TX_VSIZE : ℕ) : ℚ) := by exact_mod_cast hn1
  · injection h with h'
    push_neg at h1
    rw [← h']
    rcases le_total (max e ((n : ℚ) + 1)) RBF_MAX_FEE_RATE with hc | hc
    · rw [min_eq_left hc]
      exact le_max_right _ _
    · rw [min_eq_right hc]
      have hcap' : maxTotal / 250 ≤ 500 := hcap
      have hmt : maxTotal < 125250 := by omega
      have h250 : ((ESTIMATED_TX_VSIZE : ℕ) : ℚ) = 250 := by
        norm_num [ESTIMATED_TX_VSIZE]
      rw [h250] at h1
      have hle : ((n : ℚ) + 1) * 250 ≤ (maxTotal : ℚ) :=
        le_trans (mul_le_mul_of_nonneg_right (le_max_right _ _) (by norm_num)) h1
      have hmtq : (maxTotal : ℚ) < 125250 := by exact_mod_cast hmt
      have hnq : (n : ℚ) < 500 := by linarith
      have hn2 : n < 500 := by exact_mod_cast hnq
      have hn3 : n + 1 ≤ 500 := hn2
      unfold RBF_MAX_FEE_RATE
      calc (n : ℚ) + 1 = ((n + 1 : ℕ) : ℚ) := by push_cast; ring
        _ ≤ ((500 : ℕ) : ℚ) := by exact_mod_cast hn3
        _ = 500 := by norm_num

/-- Witness for C4 at a concrete integer-rate escalation. -/
theorem c4_bip125_integer_monotonic_witness :
    10000 / ESTIMATED_TX_VSIZE ≤ 500 ∧ ((10 : ℕ) : ℚ) + 1 ≤ 20 :=
  ⟨by norm_num [ESTIMATED_TX_VSIZE],
    c4_bip125_integer_monotonic 10 20 20 3 10000 20
      (by norm_num [ESTIMATED_TX_VSIZE])
      (by norm_num [rbfNewFeeRate, rbfEscalatedRate, MARKET_PREMIUM_BLOCKS,
        ESTIMATED_TX_VSIZE, RBF_MAX_FEE_RATE, max_def, min_def])⟩

/-- C7: the distributed lock. Acquisition is an atomic set-if-absent of the
fresh identifier with its TTL (failing without change when the key is held);
release deletes the key only when the stored identifier equals the one
remembered at acquisition, so a release by a non-holder — or after the lock
was replaced following TTL expiry — leaves the key unchanged. -/
theorem c7_lock_safety :
    (∀ (lockId : String) (ttl : ℕ),
      acquireLock ⟨none⟩ lockId ttl = (⟨some (lockId, ttl)⟩, true, some lockId)) ∧
    (∀ (store : LockStore) (v : String × ℕ) (lockId : String) (ttl : ℕ),
      store.value = some v → acquireLock store lockId ttl = (store, false, none)) ∧
    (∀ store : LockStore, releaseLock store none = store) ∧
    (∀ (store : LockStore) (cur myId : String) (ttl : ℕ),
      store.value = some (cur, ttl) → cur ≠ myId →
      releaseLock store (some myId) = store) ∧
    (∀ store : LockStore, store.value = none → releaseLock store (some "x") = store) ∧
    (∀ (store : LockStore) (myId : String) (ttl : ℕ),
      store.value = some (myId, ttl) → releaseLock store (some myId) = ⟨none⟩) := by
  refine ⟨fun lockId ttl => rfl, fun store v lockId ttl hv => ?_,
    fun store => rfl, fun store cur myId ttl hv hne => ?_, fun store hv => ?_,
    fun store myId ttl hv => ?_⟩
  · unfold acquireLock
    rw [hv]
  · unfold releaseLock
    rw [hv]
    simp [hne]
  · unfold releaseLock
    rw [hv]
  · unfold releaseLock
    rw [hv]
    simp

/-- Witness for C7 at concrete lock states. -/
theorem c7_lock_safety_witness :
    acquireLock ⟨none⟩ "id1" 300 = (⟨some ("id1", 300)⟩, true, some "id1") ∧
    acquireLock ⟨some ("id1", 300)⟩ "id2" 300 = (⟨some ("id1", 300)⟩, false, none) ∧
    releaseLock ⟨some ("id1", 300)⟩ (some "id2") = ⟨some ("id1", 300)⟩ ∧
    releaseLock ⟨some ("id1", 300)⟩ (some "id1") = ⟨none⟩ :=
  ⟨c7_lock_safety.1 "id1" 300,
    c7_lock_safety.2.1 ⟨some ("id1", 300)⟩ ("id1", 300) "id2" 300 rfl,
    c7_lock_safety.2.2.2.1 ⟨some ("id1", 300)⟩ "id1" "id2" 300 rfl (by decide),
    c7_lock_safety.2.2.2.2.2 ⟨some ("id1", 300)⟩ "id1" 300 rfl⟩

theorem hexRun64_some {s t : List Char} (h : hexRun64 s = some t) :
    t.length = 64 ∧ t.all isLowerHexChar = true := by
  induction s with
  | nil => simp [hexRun64] at h
  | cons c rest ih =>
    unfold hexRun64 at h
    split_ifs at h with hat
    · injection h with h'
      subst h'
      unfold hexRun64At at hat
      simp only [Bool.and_eq_true, beq_iff_eq] at hat
      exact ⟨hat.1, hat.2⟩
    · exact ih h

/-- C10: `broadcastTransaction` promotes an endpoint error to success when
the serialized body contains `already` OR `mempool` (either alone suffices)
together with a 64-character lowercase-hex run, returning that run as the
txid; in particular an error body naming only the mempool is promoted. -/
theorem c10_broadcast_promotion :
    (∀ s t, containsSub s ("mempool".toList) = true → hexRun64 s = some t →
      promoteBroadcastError s = some t) ∧
    (∀ s t, promoteBroadcastError s = some t →
      (containsSub s ("already".toList) = true ∨
        containsSub s ("mempool".toList) = true) ∧
      hexRun64 s = some t ∧ t.length = 64 ∧ t.all isLowerHexChar = true) ∧
    (∀ rest s t, containsSub s ("mempool".toList) = true → hexRun64 s = some t →
      broadcastTransaction (.failed s :: rest) = some t) ∧
    (containsSub exMempoolBody ("already".toList) = false ∧
      promoteBroadcastError exMempoolBody = some (List.replicate 64 'a')) := by
  have hpromote : ∀ s t, containsSub s ("mempool".toList) = true →
      hexRun64 s = some t → promoteBroadcastError s = some t := by
    intro s t hcon hhex
    unfold promoteBroadcastError
    rw [if_pos (by rw [Bool.or_eq_true]; exact Or.inr hcon)]
    exact hhex
  refine ⟨hpromote, fun s t h => ?_, fun rest s t hcon hhex => ?_, by decide, by decide⟩
  · unfold promoteBroadcastError at h
    split_ifs at h with hc
    rw [Bool.or_eq_true] at hc
    exact ⟨hc, h, hexRun64_some h⟩
  · unfold broadcastTransaction
    rw [hpromote s t hcon hhex]

/-- Witness for C10: an error body mentioning only the mempool is promoted
to a successful broadcast with the recovered 64-hex txid. -/
theorem c10_broadcast_promotion_witness :
    promoteBroadcastError exMempoolBody = some (List.replicate 64 'a') ∧
    broadcastTransaction [.failed exMempoolBody] = some (List.replicate 64 'a') :=
  ⟨c10_broadcast_promotion.1 exMempoolBody (List.replicate 64 'a')
      (by decide) (by decide),
    c10_broadcast_promotion.2.2.1 [] exMempoolBody (List.replicate 64 'a')
      (by decide) (by decide)⟩

theorem setActiveOrder_lookup_self (m : List (String × String)) (a t : String) :
    (setActiveOrder m a t).lookup a = some t := by
  simp [setActiveOrder, List.lookup]

theorem lookup_filter_ne (m : List (String × String)) (a b : String)
    (hne : b ≠ a) :
    (m.filter fun p => !(p.1 == a)).lookup b = m.lookup b := by
  induction m with
  | nil => rfl
  | cons x xs ih =>
    by_cases hxa : x.1 = a
    · rw [List.filter_cons_of_neg (by simp [hxa])]
      rw [ih]
      have hbx : (b == x.1) = false := by
        simp [hxa, hne]
      simp [List.lookup, hbx]
    · rw [List.filter_cons_of_pos (by simp [hxa])]
      by_cases hbx : b = x.1
      · simp [List.lookup, hbx]
      · have hbx' : (b == x.1) = false := by simp [hbx]
        simp [List.lookup, hbx', ih]

theorem setActiveOrder_lookup_isSome (m : List (String × String)) (a t b : String)
    (h : (m.lookup b).isSome = true) :
    ((setActiveOrder m a t).lookup b).isSome = true := by
  by_cases hba : b = a
  · subst hba
    rw [setActiveOrder_lookup_self]
    rfl
  · unfold setActiveOrder
    have hba' : (b == a) = false := by simp [hba]
    simp only [List.lookup, hba']
    rw [lookup_filter_ne m a b hba]
    exact h

theorem maintErrorPath_activeOrders (s1 : MaintRunState) (asset : String)
    (price : ℚ) (env : AssetEnv) :
    (maintErrorPath s1 asset price env).1.activeOrders = s1.activeOrders := by
  unfold maintErrorPath
  split_ifs with h1 h2 <;>
    try rfl
  all_goals
    cases henv : env.errUtxo with
    | none => rfl
    | some u =>
      dsimp only
      split_ifs <;> rfl

theorem maintErrorPath_events (s1 : MaintRunState) (asset : String)
    (price : ℚ) (env : AssetEnv) :
    (maintErrorPath s1 asset price env).1.events = s1.events := by
  unfold maintErrorPath
  split_ifs with h1 h2 <;>
    try rfl
  all_goals
    cases henv : env.errUtxo with
    | none => rfl
    | some u =>
      dsimp only
      split_ifs <;> rfl

theorem maintErrorPath_result_failure (s1 : MaintRunState) (asset : String)
    (price : ℚ) (env : AssetEnv) (hmem : env.inMempoolAfterError = false) :
    (maintErrorPath s1 asset price env).2 =
      some ⟨asset, price, false, none,
        some (if env.errMsgInsufficient then "insufficient" else "error")⟩ := by
  unfold maintErrorPath
  rw [if_neg (by simp [hmem])]

theorem maintErrorPath_result_mempool (s1 : MaintRunState) (asset : String)
    (price : ℚ) (env : AssetEnv) (hmem : env.inMempoolAfterError = true) :
    (maintErrorPath s1 asset price env).2 =
      some ⟨asset, price, true, some "found-in-mempool", none⟩ := by
  unfold maintErrorPath
  rw [if_pos hmem]

theorem maintAttempt_error_marker (s1 : MaintRunState) (asset : String)
    (price : ℚ) (env : AssetEnv) (hmem : env.inMempoolAfterError = false)
    (herr : env.composeOk = false ∨ env.signOk = false ∨ env.broadcastOk = false) :
    (maintAttempt s1 asset price env).1.activeOrders = s1.activeOrders ∧
    (maintAttempt s1 asset price env).2 =
      some ⟨asset, price, false, none,
        some (if env.errMsgInsufficient then "insufficient" else "error")⟩ := by
  unfold maintAttempt
  by_cases hc : env.composeOk = false
  · rw [if_pos hc]
    exact ⟨maintErrorPath_activeOrders _ _ _ _,
      maintErrorPath_result_failure _ _ _ _ hmem⟩
  · rw [if_neg hc]
    by_cases hs : env.signOk = false
    · rw [if_pos hs]
      exact ⟨maintErrorPath_activeOrders _ _ _ _,
        maintErrorPath_result_failure _ _ _ _ hmem⟩
    · rw [if_neg hs]
      have hb : env.broadcastOk = false := by tauto
      rw [if_pos hb]
      exact ⟨maintErrorPath_activeOrders _ _ _ _,
        maintErrorPath_result_failure _ _ _ _ hmem⟩

theorem maintAttempt_mempool_success (s1 : MaintRunState) (asset : String)
    (price : ℚ) (env : AssetEnv) (hmem : env.inMempoolAfterError = true)
    (herr : env.composeOk = false ∨ env.signOk = false ∨ env.broadcastOk = false) :
    (maintAttempt s1 asset price env).1.activeOrders = s1.activeOrders ∧
    (maintAttempt s1 asset price env).2 =
      some ⟨asset, price, true, some "found-in-mempool", none⟩ := by
  unfold maintAttempt
  by_cases hc : env.composeOk = false
  · rw [if_pos hc]
    exact ⟨maintErrorPath_activeOrders _ _ _ _,
      maintErrorPath_result_mempool _ _ _ _ hmem⟩
  · rw [if_neg hc]
    by_cases hs : env.signOk = false
    · rw [if_pos hs]
      exact ⟨maintErrorPath_activeOrders _ _ _ _,
        maintErrorPath_result_mempool _ _ _ _ hmem⟩
    · rw [if_neg hs]
      have hb : env.broadcastOk = false := by tauto
      rw [if_pos hb]
      exact ⟨maintErrorPath_activeOrders _ _ _ _,
        maintErrorPath_result_mempool _ _ _ _ hmem⟩

theorem maintAttempt_lookup_isSome (s1 : MaintRunState) (asset : String)
    (price : ℚ) (env : AssetEnv) (b : String)
    (h : (s1.activeOrders.lookup b).isSome = true) :
    (((maintAttempt s1 asset price env).1).activeOrders.lookup b).isSome = true := by
  unfold maintAttempt
  split_ifs with h1 h2 h3
  · rw [maintErrorPath_activeOrders]
    exact h
  · rw [maintErrorPath_activeOrders]
    exact h
  · rw [maintErrorPath_activeOrders]
    exact h
  · exact setActiveOrder_lookup_isSome _ _ _ _ h

theorem processAsset_lookup_isSome (m : ℕ) (s : MaintRunState) (asset : String)
    (price : ℚ) (env : AssetEnv) (b : String)
    (h : (s.activeOrders.lookup b).isSome = true) :
    (((processAsset m s asset price env).1).activeOrders.lookup b).isSome = true := by
  unfold processAsset
  split_ifs with h1 h2 h3 h4
  · exact h
  · exact h
  · exact h
  · exact h
  · exact maintAttempt_lookup_isSome _ _ _ _ _
      (by exact setActiveOrder_lookup_isSome _ _ _ _ h)

/-- C8: in the KV-backed maintenance revision, a per-asset attempt that
errors keeps the durable active-order marker (placeholder txid `pending`,
written before composing) in place and reports a failure when the post-error
mempool re-check does not show the order; when the re-check does show it,
the attempt is reported as a success. `processAsset` never removes entries
from the durable map; the only removal mechanism in the state manager is
`clearStaleActiveOrders`, which deletes exactly the entries older than the
2-hour `STALE_ORDER_AGE`. -/
theorem c8_error_marker_retained :
    (∀ (m : ℕ) (s : MaintRunState) (asset : String) (price : ℚ) (env : AssetEnv),
      s.currentUnconfirmed < m → asset ∉ s.processedThisRun →
      asset ∉ s.pendingOrdersSet → s.activeOrders.lookup asset = none →
      (env.composeOk = false ∨ env.signOk = false ∨ env.broadcastOk = false) →
      (env.inMempoolAfterError = false →
        ((processAsset m s asset price env).1.activeOrders.lookup asset =
            some "pending" ∧
          (processAsset m s asset price env).2 =
            some ⟨asset, price, false, none,
              some (if env.errMsgInsufficient then "insufficient" else "error")⟩)) ∧
      (env.inMempoolAfterError = true →
        (processAsset m s asset price env).2 =
          some ⟨asset, price, true, some "found-in-mempool", none⟩)) ∧
    (∀ (m : ℕ) (s : MaintRunState) (asset : String) (price : ℚ) (env : AssetEnv)
      (b : String), (s.activeOrders.lookup b).isSome = true →
      (((processAsset m s asset price env).1).activeOrders.lookup b).isSome = true) ∧
    (∀ (orders : List (String × ℕ)) (now : ℕ) (p : String × ℕ),
      p ∈ clearStaleActiveOrders orders now STALE_ORDER_AGE ↔
        p ∈ orders ∧ now - p.2 ≤ STALE_ORDER_AGE) := by
  refine ⟨fun m s asset price env h1 h2 h3 h4 herr => ⟨fun hmem => ?_, fun hmem => ?_⟩,
    processAsset_lookup_isSome,
    fun orders now p => ?_⟩
  · unfold processAsset
    rw [if_neg (by omega), if_neg (by simp [h2]), if_neg (by simp [h3]),
      if_neg (by simp [h4])]
    have hma := maintAttempt_error_marker
      { s with
        processedThisRun := s.processedThisRun ++ [asset],
        pendingOrdersSet := s.pendingOrdersSet ++ [asset],
        activeOrders := setActiveOrder s.activeOrders asset "pending",
        events := s.events ++ [.markActive asset "pending"] }
      asset price env hmem herr
    rw [hma.1, hma.2]
    exact ⟨setActiveOrder_lookup_self _ _ _, rfl⟩
  · unfold processAsset
    rw [if_neg (by omega), if_neg (by simp [h2]), if_neg (by simp [h3]),
      if_neg (by simp [h4])]
    exact (maintAttempt_mempool_success _ _ _ _ hmem herr).2
  · simp [clearStaleActiveOrders, List.mem_filter, not_lt]

/-- Witness for C8 at a concrete failing attempt. -/
theorem c8_error_marker_retained_witness :
    ((processAsset 25 maintS0 "A" 1 envComposeFails).1.activeOrders.lookup "A" =
        some "pending" ∧
      (processAsset 25 maintS0 "A" 1 envComposeFails).2 =
        some ⟨"A", 1, false, none, some "error"⟩) ∧
    (("A", 0) ∈ clearStaleActiveOrders [("A", 0)] 1000 STALE_ORDER_AGE ↔
      ("A", 0) ∈ [("A", 0)] ∧ 1000 - 0 ≤ STALE_ORDER_AGE) := by
  have h := (c8_error_marker_retained.1 25 maintS0 "A" 1 envComposeFails
    (by decide) (by decide) (by decide) (by decide) (Or.inl rfl)).1 rfl
  exact ⟨h, c8_error_marker_retained.2.2 [("A", 0)] 1000 ("A", 0)⟩

theorem maintAttempt_compose_events (s1 : MaintRunState) (asset : String)
    (price : ℚ) (env : AssetEnv) (b : String)
    (hb : MaintEvent.composeOrderCall b ∈ (maintAttempt s1 asset price env).1.events) :
    MaintEvent.composeOrderCall b ∈ s1.events ∨ b = asset := by
  unfold maintAttempt at hb
  split_ifs at hb with h1 h2 h3
  · rw [maintErrorPath_events] at hb
    simp only [List.mem_append, List.mem_singleton] at hb
    rcases hb with h | h
    · exact Or.inl h
    · injection h with h
      exact Or.inr h
  · rw [maintErrorPath_events] at hb
    simp only [List.mem_append, List.mem_cons, List.not_mem_nil, or_false] at hb
    rcases hb with h | h | h
    · exact Or.inl h
    · injection h with h
      exact Or.inr h
    · exact absurd h (by simp)
  · rw [maintErrorPath_events] at hb
    simp only [List.mem_append, List.mem_cons, List.not_mem_nil, or_false] at hb
    rcases hb with h | h | h | h
    · exact Or.inl h
    · injection h with h
      exact Or.inr h
    · exact absurd h (by simp)
    · exact absurd h (by simp)
  · simp only [List.mem_append, List.mem_cons, List.not_mem_nil, or_false] at hb
    rcases hb with h | h | h | h | h | h
    · exact Or.inl h
    · injection h with h
      exact Or.inr h
    · exact absurd h (by simp)
    · exact absurd h (by simp)
    · exact absurd h (by simp)
    · exact absurd h (by simp)

theorem processAsset_compose_events (m : ℕ) (s : MaintRunState) (asset : String)
    (price : ℚ) (env : AssetEnv) (b : String)
    (hb : MaintEvent.composeOrderCall b ∈ (processAsset m s asset price env).1.events) :
    MaintEvent.composeOrderCall b ∈ s.events ∨ b = asset := by
  unfold processAsset at hb
  split_ifs at hb with h1 h2 h3 h4
  · exact Or.inl hb
  · exact Or.inl hb
  · exact Or.inl hb
  · exact Or.inl hb
  · rcases maintAttempt_compose_events _ _ _ _ _ hb with h | h
    · simp only [List.mem_append, List.mem_singleton] at h
      rcases h with h | h
      · exact Or.inl h
      · exact absurd h (by simp)
    · exact Or.inr h

theorem maintRunLoop_compose_events (m : ℕ) (b : String) :
    ∀ (items : List (String × ℚ × AssetEnv)) (s : MaintRunState),
    MaintEvent.composeOrderCall b ∈ (maintRunLoop m s items).events →
    MaintEvent.composeOrderCall b ∈ s.events ∨ b ∈ items.map (fun it => it.1) := by
  intro items
  induction items with
  | nil =>
    intro s hb
    exact Or.inl hb
  | cons it rest ih =>
    intro s hb
    obtain ⟨asset, price, env⟩ := it
    unfold maintRunLoop at hb
    cases hpa : processAsset m s asset price env with
    | mk s' r =>
      rw [hpa] at hb
      have hs' : MaintEvent.composeOrderCall b ∈ s'.events →
          MaintEvent.composeOrderCall b ∈ s.events ∨ b = asset := by
        intro h
        have := processAsset_compose_events m s asset price env b (by rw [hpa]; exact h)
        exact this
      cases r with
      | none =>
        simp only at hb
        split_ifs at hb
        · rcases hs' hb with h | h
          · exact Or.inl h
          · exact Or.inr (by simp [h])
        · rcases ih s' hb with h | h
          · rcases hs' h with h' | h'
            · exact Or.inl h'
            · exact Or.inr (by simp [h'])
          · exact Or.inr (by simp [h])
      | some res =>
        simp only at hb
        split_ifs at hb
        · rcases hs' hb with h | h
          · exact Or.inl h
          · exact Or.inr (by simp [h])
        · rcases hs' hb with h | h
          · exact Or.inl h
          · exact Or.inr (by simp [h])
        · rcases ih s' hb with h | h
          · rcases hs' h with h' | h'
            · exact Or.inl h'
            · exact Or.inr (by simp [h'])
          · exact Or.inr (by simp [h])

theorem buildToProcess_not_listed (balances : List (String × ℕ))
    (alreadyListed : List String) (prices : List (String × ℚ))
    (x : String × ℚ) (hx : x ∈ buildToProcess balances alreadyListed prices) :
    x.1 ∉ alreadyListed := by
  unfold buildToProcess at hx
  rw [List.mem_filterMap] at hx
  obtain ⟨b, _, hfb⟩ := hx
  split_ifs at hfb with h1
  cases hlk : prices.lookup b.1 with
  | none => simp [hlk] at hfb
  | some p =>
    simp only [hlk] at hfb
    by_cases h2 : 0 < p
    · rw [if_pos h2] at hfb
      injection hfb with hfb
      rw [← hfb]
      exact h1
    · rw [if_neg h2] at hfb
      exact absurd hfb (by simp)

/-- C3: for every asset in `alreadyListed` (confirmed open orders ∪ mempool
open orders ∪ tracked active orders) at the start of a maintenance run, no
compose-order call is issued for it during that run: such assets are
excluded from `toProcess`, and `processAsset` only composes for assets drawn
from `toProcess` (after its own in-run processed / pending / durable-read
skips). -/
theorem c3_already_listed_no_compose (m : ℕ) (inp : MaintInputs) (a : String)
    (ha : a ∈ alreadyListedOf inp) :
    MaintEvent.composeOrderCall a ∉ (maintRun m inp).events := by
  intro hb
  unfold maintRun at hb
  split_ifs at hb with h1 h2
  · simp at hb
  · simp at hb
  · rcases maintRunLoop_compose_events m a _ _ hb with h | h
    · simp at h
    · rw [List.map_map, List.mem_map] at h
      obtain ⟨x, hx, hxa⟩ := h
      have := buildToProcess_not_listed inp.balances (alreadyListedOf inp)
        inp.prices x hx
      rw [show (((fun it => it.1) ∘ fun ap => (ap.1, ap.2,
        (inp.envs.lookup ap.1).getD defaultAssetEnv)) x) = x.1 from rfl] at hxa
      rw [hxa] at this
      exact this ha

/-- Witness for C3 at a concrete run with a listed asset. -/
theorem c3_already_listed_no_compose_witness :
    MaintEvent.composeOrderCall "A" ∉ (maintRun 25 inpListedW).events :=
  c3_already_listed_no_compose 25 inpListedW "A" (by decide)

/-- C1 counterexample: the maintenance listing path signs a transaction with
a 15000-sat fee — above the 10000-sat `MAX_TOTAL_FEE_SATS` ceiling — and
still calls `broadcastTransaction` with it, returning a success: no
maintenance stage checks the signed fee against the ceiling. -/
theorem c1_maintenance_fee_ceiling_counterexample :
    MAX_TOTAL_FEE_SATS < 15000 ∧
    MaintEvent.broadcastOrderCall "A" 15000 ∈
      (processAsset 25 maintS0 "A" 1 envOverFee).1.events ∧
    ((processAsset 25 maintS0 "A" 1 envOverFee).2).map MaintResult.success =
      some true := by
  refine ⟨by decide, by decide, by decide⟩

theorem countFreshOk_le_countFresh (h : String) (t : List LifeStep) :
    countFreshOk h t ≤ countFresh h t := by
  induction t with
  | nil => exact le_refl 0
  | cons st rest ih =>
    unfold countFreshOk countFresh at ih ⊢
    rw [List.countP_cons, List.countP_cons]
    have hstep : (if isFreshOkFor h st then 1 else 0) ≤
        (if isFreshFor h st then (1 : ℕ) else 0) := by
      cases st <;> simp [isFreshOkFor, isFreshFor]
    omega

theorem countBroadcastCalls_split (h : String) (t : List LifeStep) :
    countBroadcastCalls h t =
      countFreshOk h t + countFreshErr h t + countRbfCalls h t := by
  induction t with
  | nil => rfl
  | cons st rest ih =>
    unfold countBroadcastCalls countFreshOk countFreshErr countRbfCalls at ih ⊢
    rw [List.countP_cons, List.countP_cons, List.countP_cons, List.countP_cons, ih]
    have hstep : (if isBroadcastCallFor h st then (1 : ℕ) else 0) =
        (if isFreshOkFor h st then 1 else 0) + (if isFreshErrFor h st then 1 else 0) +
          (if isRbfCallFor h st then 1 else 0) := by
      cases st <;>
        simp [isBroadcastCallFor, isFreshOkFor, isFreshErrFor, isRbfCallFor]
    omega

theorem lifeGuard_blocks_fresh (s : LifeState) (st : LifeStep) (h : String)
    (hg : lifeGuard s st = true) (hm : h ∈ s.processed) :
    isFreshFor h st = false := by
  cases st with
  | freshOk h' =>
    simp only [lifeGuard, Bool.and_eq_true, decide_eq_true_eq] at hg
    simp only [isFreshFor, beq_eq_false_iff_ne]
    intro he
    exact hg.1 (he ▸ hm)
  | freshErr h' =>
    simp only [lifeGuard, Bool.and_eq_true, decide_eq_true_eq] at hg
    simp only [isFreshFor, beq_eq_false_iff_ne]
    intro he
    exact hg.1 (he ▸ hm)
  | skipTransferred h' => rfl
  | rbf h' => rfl
  | rbfErr h' => rfl
  | rbfAbandon h' => rfl
  | confirmDrop h' => rfl
  | cleanup keep => rfl

theorem lifeApply_processed_length (s : LifeState) (st : LifeStep)
    (hst : isCleanup st = false) :
    (lifeApply s st).processed.length ≤ s.processed.length + 1 := by
  cases st with
  | freshOk h => exact markOrderProcessed_length_le _ _
  | skipTransferred h => exact markOrderProcessed_length_le _ _
  | cleanup keep => exact absurd hst (by simp [isCleanup])
  | freshErr h => exact Nat.le_succ _
  | rbf h => exact Nat.le_succ _
  | rbfErr h => exact Nat.le_succ _
  | rbfAbandon h => exact Nat.le_succ _
  | confirmDrop h => exact Nat.le_succ _

theorem lifeApply_processed_mem (s : LifeState) (st : LifeStep) (h : String)
    (hst : isCleanup st = false) (hlen : s.processed.length ≤ 999)
    (hm : h ∈ s.processed) : h ∈ (lifeApply s st).processed := by
  cases st with
  | freshOk h' => exact markOrderProcessed_mem_of_mem h' hm hlen
  | skipTransferred h' => exact markOrderProcessed_mem_of_mem h' hm hlen
  | cleanup keep => exact absurd hst (by simp [isCleanup])
  | freshErr h' => exact hm
  | rbf h' => exact hm
  | rbfErr h' => exact hm
  | rbfAbandon h' => exact hm
  | confirmDrop h' => exact hm

theorem life_fresh_bound (h : String) :
    ∀ (t : List LifeStep) (s : LifeState),
    lifeValid s t = true → hasCleanup t = false →
    s.processed.length + t.length ≤ 1000 →
    ((h ∈ s.processed) → countFresh h t = 0) ∧ countFreshOk h t ≤ 1 := by
  intro t
  induction t with
  | nil =>
    intro s _ _ _
    exact ⟨fun _ => rfl, Nat.zero_le 1⟩
  | cons st rest ih =>
    intro s hv hnc hlen
    simp only [lifeValid, Bool.and_eq_true] at hv
    obtain ⟨hg, hv'⟩ := hv
    simp only [hasCleanup, List.any_cons, Bool.or_eq_false_iff] at hnc
    obtain ⟨hst, hnc'⟩ := hnc
    have hnc'' : hasCleanup rest = false := hnc'
    have hlen0 : s.processed.length ≤ 999 := by
      have : (st :: rest).length = rest.length + 1 := rfl
      omega
    have hlen' : (lifeApply s st).processed.length + rest.length ≤ 1000 := by
      have h1 := lifeApply_processed_length s st hst
      have h2 : (st :: rest).length = rest.length + 1 := rfl
      omega
    have IH := ih (lifeApply s st) hv' hnc'' hlen'
    constructor
    · intro hm
      have hnf : isFreshFor h st = false := lifeGuard_blocks_fresh s st h hg hm
      have hm' : h ∈ (lifeApply s st).processed :=
        lifeApply_processed_mem s st h hst hlen0 hm
      unfold countFresh
      rw [List.countP_cons]
      have hr : countFresh h rest = 0 := IH.1 hm'
      unfold countFresh at hr
      simp [hnf, hr]
    · cases hfo : isFreshOkFor h st with
      | false =>
        unfold countFreshOk
        rw [List.countP_cons]
        simp only [hfo]
        simpa [countFreshOk] using IH.2
      | true =>
        have hst' : st = .freshOk h := by
          cases st with
          | freshOk hx =>
            simp only [isFreshOkFor, beq_iff_eq] at hfo
            rw [hfo]
          | freshErr hx => simp [isFreshOkFor] at hfo
          | skipTransferred hx => simp [isFreshOkFor] at hfo
          | rbf hx => simp [isFreshOkFor] at hfo
          | rbfErr hx => simp [isFreshOkFor] at hfo
          | rbfAbandon hx => simp [isFreshOkFor] at hfo
          | confirmDrop hx => simp [isFreshOkFor] at hfo
          | cleanup k => simp [isFreshOkFor] at hfo
        subst hst'
        have hm' : h ∈ (lifeApply s (.freshOk h)).processed :=
          markOrderProcessed_mem_self s.processed h
        have hr : countFresh h rest = 0 := IH.1 hm'
        have hr' : countFreshOk h rest = 0 :=
          Nat.le_zero.mp (hr ▸ countFreshOk_le_countFresh h rest)
        unfold countFreshOk
        rw [List.countP_cons]
        unfold countFreshOk at hr'
        simp [hr', isFreshOkFor]

/-- C2 counterexample: two failed fresh-broadcast attempts for the same
order form a valid lifetime trace (a raising `broadcastTransaction` call
does not mark the order processed, so the next run composes and broadcasts
again), giving 2 broadcast calls with 0 RBF escalations — above the claimed
`1 + RBF escalations` bound. -/
theorem c2_broadcast_bound_counterexample :
    lifeValid lifeInit [.freshErr "a", .freshErr "a"] = true ∧
    ¬ (countBroadcastCalls "a" [.freshErr "a", .freshErr "a"] ≤
        1 + countRbfCalls "a" [.freshErr "a", .freshErr "a"]) := by
  decide

/-- C2 (amended): membership in the processed set blocks every fresh
(non-RBF) broadcast step, and a successful fresh broadcast immediately marks
the order, so in any valid lifetime trace without processed-set truncation
(no cleanup step, at most 999 steps so the 1000-entry cap never evicts) at
most one fresh broadcast for `h` succeeds, and the number of
`broadcastTransaction` calls for `h` is at most 1 plus the RBF escalations
plus the failed fresh attempts for `h`. -/
theorem c2_processed_blocks_fresh_broadcast :
    (∀ (s : LifeState) (st : LifeStep) (h : String),
      lifeGuard s st = true → h ∈ s.processed → isFreshFor h st = false) ∧
    (∀ (h : String) (t : List LifeStep),
      lifeValid lifeInit t = true → hasCleanup t = false → t.length ≤ 999 →
      countFreshOk h t ≤ 1 ∧
      countBroadcastCalls h t ≤ 1 + countRbfCalls h t + countFreshErr h t) := by
  refine ⟨lifeGuard_blocks_fresh, fun h t hv hnc hlen => ?_⟩
  have hb := life_fresh_bound h t lifeInit hv hnc (by simp [lifeInit]; omega)
  refine ⟨hb.2, ?_⟩
  rw [countBroadcastCalls_split]
  have := hb.2
  omega

/-- Witness for C2 at a concrete lifetime trace. -/
theorem c2_processed_blocks_fresh_broadcast_witness :
    isFreshFor "a" (.freshOk "b") = false ∧
    (countFreshOk "a" [.freshOk "a", .rbf "a"] ≤ 1 ∧
      countBroadcastCalls "a" [.freshOk "a", .rbf "a"] ≤
        1 + countRbfCalls "a" [.freshOk "a", .rbf "a"] +
          countFreshErr "a" [.freshOk "a", .rbf "a"]) :=
  ⟨c2_processed_blocks_fresh_broadcast.1 ⟨["a"], []⟩ (.freshOk "b") "a"
      (by decide) (by decide),
    c2_processed_blocks_fresh_broadcast.2 "a" [.freshOk "a", .rbf "a"]
      (by decide) (by decide) (by decide)⟩

end Xcpfolio
